import Mathlib

/-!
Verification of the scene batch collection core of rbfx
(`Source/Urho3D/Graphics/SceneBatchCollector.cpp` and
`Source/Urho3D/Graphics/ScenePass.cpp`) against its natural-language
specification.

Shallow embedding conventions:
* `unsigned` indices become `Nat`; the sentinel `M_MAX_UNSIGNED` is the
  concrete constant `2^32 - 1`.
* Pointers become `Option` (with `none` for `nullptr`); a `Pass*` is an
  `Option Nat` where the `Nat` is an opaque pass handle.
* Floating-point quantities that the collected code only ever compares
  (draw distance, LOD distance, quality level) become `Int`; geometric
  computations performed by external collaborators (bounding boxes,
  frustum/sphere containment, view-space projection) are abstracted as
  oracle functions supplied as parameters.
* Types declared in headers that are not part of the two source files
  (`BaseSceneBatch`, the pipeline state cache, the drawable light
  accumulator, trait flag values) are modelled from the spec; each such
  definition carries a doc comment starting with `Modelled from the spec:`.
* `ForEachParallel` chunks are modelled as a single deterministic lane:
  the per-batch bodies are data parallel and every phase is separated by
  a barrier, so the sequential fold over the same element order is the
  deterministic merge the source produces.
-/

namespace Rbfx

/-- The `M_MAX_UNSIGNED` sentinel (`0xffffffff`) used by the source for
"no pass index" and "no light index". -/
def M_MAX_UNSIGNED : Nat := 4294967295

/-- Opaque handle of a material pass (`Pass*` identity). -/
abbrev Pass := Nat

/-- A technique, as observed by the two source files: whether it is
supported, and its sparse array of passes indexed by pass index
(`Technique::GetPass`); entries can be absent (`nullptr`). -/
structure Technique where
  supported : Bool
  passes : List (Option Pass)
deriving DecidableEq

/-- Embeds `Technique::GetPass(i)`: the stored pass at index `i`, `nullptr` when
the index is out of range or the slot is empty. -/
def Technique.GetPass (t : Technique) (i : Nat) : Option Pass :=
  t.passes.getD i none

/-- One entry of a material's technique list (`TechniqueEntry`): the
technique (possibly null), its minimum quality level and its LOD distance
threshold. -/
structure TechniqueEntry where
  technique : Option Technique
  qualityLevel : Int
  lodDistance : Int
deriving DecidableEq

/-- The scan loop of `SceneBatchCollector::FindTechnique`
(SceneBatchCollector.cpp:265-274): walk the entries in order, skip null,
unsupported, or too-high-quality entries, and return the first remaining
technique whose LOD distance threshold is at most the drawable's LOD
distance. -/
def findTechniqueScan (materialQuality lodDistance : Int) :
    List TechniqueEntry → Option Technique
  | [] => none
  | e :: rest =>
    match e.technique with
    | none => findTechniqueScan materialQuality lodDistance rest
    | some tech =>
      if ¬ tech.supported ∨ materialQuality < e.qualityLevel then
        findTechniqueScan materialQuality lodDistance rest
      else if lodDistance ≥ e.lodDistance then
        some tech
      else
        findTechniqueScan materialQuality lodDistance rest

/-- Embeds `SceneBatchCollector::FindTechnique` (SceneBatchCollector.cpp:255-278):
a single-entry list short-circuits to that entry's technique; otherwise the
scan loop runs, falling back to the last entry's technique. -/
def findTechnique (materialQuality lodDistance : Int)
    (techniques : List TechniqueEntry) : Option Technique :=
  match techniques with
  | [e] => e.technique
  | _ =>
    match findTechniqueScan materialQuality lodDistance techniques with
    | some tech => some tech
    | none =>
      match techniques.getLast? with
      | some e => e.technique
      | none => none

/-- Spec-side predicate for claim C7: an entry is retained by the scan when
it is supported (a null technique counts as unsupported), its quality level
does not exceed the effective material quality, and its LOD distance
threshold is at most the drawable's LOD distance. -/
def eligibleEntry (materialQuality lodDistance : Int)
    (e : TechniqueEntry) : Bool :=
  match e.technique with
  | none => false
  | some tech =>
    tech.supported && decide (materialQuality ≥ e.qualityLevel)
      && decide (lodDistance ≥ e.lodDistance)

theorem findTechniqueScan_eq_find (mq lod : Int) (ts : List TechniqueEntry) :
    findTechniqueScan mq lod ts
      = (ts.find? (eligibleEntry mq lod)).bind TechniqueEntry.technique := by
  induction ts with
  | nil => rfl
  | cons e rest ih =>
    cases he : e.technique with
    | none =>
      simp [findTechniqueScan, he, List.find?, eligibleEntry, ih]
    | some tech =>
      by_cases hs : tech.supported
      · by_cases hq : mq < e.qualityLevel
        · have : eligibleEntry mq lod e = false := by
            simp [eligibleEntry, he, hs]
            omega
          simp [findTechniqueScan, he, hs, hq, List.find?, this, ih]
        · by_cases hl : lod ≥ e.lodDistance
          · have : eligibleEntry mq lod e = true := by
              simp [eligibleEntry, he, hs]
              omega
            simp [findTechniqueScan, he, hs, hq, hl, List.find?, this, Option.bind]
          · have : eligibleEntry mq lod e = false := by
              simp [eligibleEntry, he, hs]
              omega
            simp [findTechniqueScan, he, hs, hq, hl, List.find?, this, ih]
      · have : eligibleEntry mq lod e = false := by
          simp [eligibleEntry, he, hs]
        simp [findTechniqueScan, he, hs, List.find?, this, ih]

/-- Claim C7: a material with exactly one technique entry returns that
entry's technique unconditionally; with two or more entries, the entries
are scanned in list order, unsupported or too-high-quality entries are
skipped, the first remaining entry whose LOD distance threshold is at most
the drawable's LOD distance wins, and if no entry matches, the last
entry's technique is returned. -/
theorem findTechnique_characterization (mq lod : Int) :
    (∀ e : TechniqueEntry, findTechnique mq lod [e] = e.technique) ∧
    (∀ (a b : TechniqueEntry) (rest : List TechniqueEntry),
      findTechnique mq lod (a :: b :: rest)
        = match (a :: b :: rest).find? (eligibleEntry mq lod) with
          | some e => e.technique
          | none =>
            match (a :: b :: rest).getLast? with
            | some e => e.technique
            | none => none) := by
  constructor
  · intro e
    rfl
  · intro a b rest
    show (match findTechniqueScan mq lod (a :: b :: rest) with
      | some tech => some tech
      | none =>
        match (a :: b :: rest).getLast? with
        | some e => e.technique
        | none => none) = _
    rw [findTechniqueScan_eq_find]
    cases hf : (a :: b :: rest).find? (eligibleEntry mq lod) with
    | none => simp
    | some e =>
      have he := List.find?_some hf
      cases het : e.technique with
      | none => simp [eligibleEntry, het] at he
      | some tech => simp [het]

/-- Witness for claim C7 at a concrete material: the first entry is
skipped for quality, the second wins on LOD distance. -/
theorem findTechnique_characterization_witness :
    findTechnique 1 5
      [⟨some ⟨true, [some 1]⟩, 2, 0⟩, ⟨some ⟨true, [some 2]⟩, 0, 3⟩,
        ⟨some ⟨true, [some 3]⟩, 0, 0⟩]
      = some ⟨true, [some 2]⟩ := by
  have h := (findTechnique_characterization 1 5).2
    ⟨some ⟨true, [some 1]⟩, 2, 0⟩ ⟨some ⟨true, [some 2]⟩, 0, 3⟩
    [⟨some ⟨true, [some 3]⟩, 0, 0⟩]
  simpa using h

/-- Embeds `ScenePass`'s / `SceneBatchCollector`'s intermediate batch: drawable
(called `geometry_` in the collector), source batch index, base pass and
additional (forward light) pass. The drawable is stored by its stable
drawable index; `none` models a null drawable pointer. -/
structure IntermediateSceneBatch where
  drawable : Option Nat
  sourceBatchIndex : Nat
  basePass : Option Pass
  additionalPass : Option Pass
deriving DecidableEq

/-- The three pass indices a `ScenePass` is constructed with
(ScenePass.cpp:45-54). -/
structure ScenePassIndexSet where
  unlitBasePassIndex : Nat
  litBasePassIndex : Nat
  lightPassIndex : Nat
deriving DecidableEq

/-- Embeds `ScenePass::AddSourceBatch` (ScenePass.cpp:72-106): classify the
technique's passes and insert intermediate batches into the unlit and lit
collections of the pass; returns whether the drawable is forward-lit.
The result is (return value, batches inserted into `unlitBatches_`,
batches inserted into `litBatches_`). -/
def addSourceBatch (sp : ScenePassIndexSet) (drawable sourceBatchIndex : Nat)
    (technique : Technique) :
    Bool × List IntermediateSceneBatch × List IntermediateSceneBatch :=
  let unlitBasePass := technique.GetPass sp.unlitBasePassIndex
  let litBasePass := technique.GetPass sp.litBasePassIndex
  let lightPass := technique.GetPass sp.lightPassIndex
  match lightPass with
  | some lp =>
    match litBasePass with
    | some lbp =>
      (true, [], [⟨some drawable, sourceBatchIndex, some lbp, some lp⟩])
    | none =>
      match unlitBasePass with
      | some ubp =>
        (true, [⟨some drawable, sourceBatchIndex, some ubp, none⟩],
          [⟨some drawable, sourceBatchIndex, none, some lp⟩])
      | none => (false, [], [])
  | none =>
    (false, [⟨some drawable, sourceBatchIndex, unlitBasePass, none⟩], [])

/-- Claim C10: `AddSourceBatch` returns true iff the technique has a light
pass together with at least one base pass; with a light pass and an unlit
base but no lit base, the source batch is inserted twice (unlit carrying
the unlit base pass and no light pass, lit carrying a null base pass and
the light pass); with no light pass, a single unlit batch carrying the
(possibly null) unlit base pass is inserted and false is returned. -/
theorem addSourceBatch_characterization (sp : ScenePassIndexSet)
    (d i : Nat) (tech : Technique) :
    ((addSourceBatch sp d i tech).1 = true ↔
      tech.GetPass sp.lightPassIndex ≠ none ∧
        (tech.GetPass sp.litBasePassIndex ≠ none ∨
          tech.GetPass sp.unlitBasePassIndex ≠ none)) ∧
    (∀ lp ubp, tech.GetPass sp.lightPassIndex = some lp →
      tech.GetPass sp.litBasePassIndex = none →
      tech.GetPass sp.unlitBasePassIndex = some ubp →
      addSourceBatch sp d i tech
        = (true, [⟨some d, i, some ubp, none⟩], [⟨some d, i, none, some lp⟩])) ∧
    (tech.GetPass sp.lightPassIndex = none →
      addSourceBatch sp d i tech
        = (false, [⟨some d, i, tech.GetPass sp.unlitBasePassIndex, none⟩], [])) := by
  refine ⟨?_, ?_, ?_⟩
  · cases hl : tech.GetPass sp.lightPassIndex with
    | none => simp [addSourceBatch, hl]
    | some lp =>
      cases hlb : tech.GetPass sp.litBasePassIndex with
      | some lbp => simp [addSourceBatch, hl, hlb]
      | none =>
        cases hub : tech.GetPass sp.unlitBasePassIndex with
        | some ubp => simp [addSourceBatch, hl, hlb, hub]
        | none => simp [addSourceBatch, hl, hlb, hub]
  · intro lp ubp hl hlb hub
    simp [addSourceBatch, hl, hlb, hub]
  · intro hl
    simp [addSourceBatch, hl]

/-- Witness for claim C10: a technique with an unlit base pass at index 0
and a light pass at index 2 but no lit base pass produces the double
insertion and returns true. -/
theorem addSourceBatch_characterization_witness :
    addSourceBatch ⟨0, 1, 2⟩ 5 0 ⟨true, [some 10, none, some 12]⟩
      = (true, [⟨some 5, 0, some 10, none⟩], [⟨some 5, 0, none, some 12⟩]) := by
  have h := (addSourceBatch_characterization ⟨0, 1, 2⟩ 5 0
    ⟨true, [some 10, none, some 12]⟩).2.1 12 10 (by decide) (by decide) (by decide)
  simpa using h

/-- Modelled from the spec: `BaseSceneBatch` (declared in `ScenePass.h`,
not part of the two source files). A final scene batch carries the
drawable, its index, the source batch index, the resolved geometry and
material handles, the assigned light index (`M_MAX_UNSIGNED` for "none"),
the pass, and the pipeline state handle (`none` models a null pointer). -/
structure BaseSceneBatch where
  drawable : Option Nat
  drawableIndex : Nat
  sourceBatchIndex : Nat
  geometry : Nat
  material : Nat
  pass : Option Pass
  lightIndex : Nat
  pipelineState : Option Nat
deriving DecidableEq

/-- Modelled from the spec: the default-constructed `BaseSceneBatch` that
`ea::vector::resize` places into the freshly grown slots of
`litBaseBatches_` / `unlitBaseBatches_`. Unsigned members with empty
brace initializers value-initialize to zero and pointers to null. -/
def defaultBaseSceneBatch : BaseSceneBatch :=
  ⟨none, 0, 0, 0, 0, none, M_MAX_UNSIGNED, none⟩

/-- Modelled from the spec: the frame-constant data the `BaseSceneBatch`
constructor reads. `geometryOf d i` / `materialOf d i` are the geometry
handle and the (possibly null) material of source batch `i` of drawable
`d`; a null material falls back to the renderer's default material. -/
structure FrameData where
  geometryOf : Nat → Nat → Nat
  materialOf : Nat → Nat → Option Nat
  defaultMaterial : Nat

/-- Modelled from the spec: the `BaseSceneBatch{lightIndex,
intermediateBatch, defaultMaterial}` constructor used at
ScenePass.cpp:128/171. It copies the drawable and source batch index from
the intermediate batch, resolves the drawable's index, geometry and
material (default-material fallback) and takes the intermediate batch's
base pass; the pipeline state starts null. -/
def mkBaseSceneBatch (fr : FrameData) (lightIndex : Nat)
    (ib : IntermediateSceneBatch) : BaseSceneBatch :=
  let d := ib.drawable.getD 0
  { drawable := ib.drawable
    drawableIndex := d
    sourceBatchIndex := ib.sourceBatchIndex
    geometry := fr.geometryOf d ib.sourceBatchIndex
    material := (fr.materialOf d ib.sourceBatchIndex).getD fr.defaultMaterial
    pass := ib.basePass
    lightIndex := lightIndex
    pipelineState := none }

/-- Modelled from the spec: `ScenePipelineStateKey` — structural identity
of geometry handle, material handle, pass handle and source batch index,
combined with the light configuration hash (0 when no light). -/
structure ScenePipelineStateKey where
  geometry : Nat
  material : Nat
  pass : Option Pass
  sourceBatchIndex : Nat
  lightHash : Nat
deriving DecidableEq

/-- Embeds `ScenePipelineStateKey{batch, lightHash}`: build the key from a final
batch and a light hash. -/
def mkKey (b : BaseSceneBatch) (lightHash : Nat) : ScenePipelineStateKey :=
  ⟨b.geometry, b.material, b.pass, b.sourceBatchIndex, lightHash⟩

/-- Modelled from the spec: the pipeline state cache is a mapping from
structural keys to already created pipeline state handles. -/
abbrev ScenePipelineStateCache := List (ScenePipelineStateKey × Nat)

/-- Modelled from the spec: `GetPipelineState` — the thread-safe lookup
half of the cache; returns `none` on a miss. -/
def cacheLookup (c : ScenePipelineStateCache) (k : ScenePipelineStateKey) :
    Option Nat :=
  (c.find? (fun e => e.1 = k)).map (fun e => e.2)

/-- Modelled from the spec: `GetOrCreatePipelineState` — the
single-threaded get-or-create half of the cache: return the cached handle
if the key is present, otherwise invoke the creation callback once and
remember the result. -/
def getOrCreatePipelineState (create : ScenePipelineStateKey → Nat)
    (c : ScenePipelineStateCache) (k : ScenePipelineStateKey) :
    Nat × ScenePipelineStateCache :=
  match cacheLookup c k with
  | some h => (h, c)
  | none => (create k, (k, create k) :: c)

/-- The per-lane dirty lists (`unlitBaseBatchesDirty_` and friends): the
indices of the batches whose pre-barrier cache lookup missed, in batch
order (ScenePass.cpp:130-131, 173-174, 187-188). -/
def dirtyIndices (batches : List BaseSceneBatch) : List Nat :=
  (List.range batches.length).filter
    (fun i => ((batches.getD i defaultBaseSceneBatch).pipelineState).isNone)

/-- The post-barrier dirty resolution loop shared by
`CollectUnlitBatches` and `CollectLitBatches`
(ScenePass.cpp:139-144, 200-206, 214-224): walk the recorded dirty batch
indices, rebuild each batch's key (with the light hash `hashOf` the
respective loop uses), resolve it via get-or-create and store the handle.
Also returns the final cache and the ordered log of keys get-or-create
was invoked on. -/
def resolveDirty (create : ScenePipelineStateKey → Nat)
    (hashOf : BaseSceneBatch → Nat) :
    List BaseSceneBatch → ScenePipelineStateCache → List ScenePipelineStateKey →
    List Nat →
    List BaseSceneBatch × ScenePipelineStateCache × List ScenePipelineStateKey
  | batches, cache, log, [] => (batches, cache, log)
  | batches, cache, log, i :: rest =>
    let b := batches.getD i defaultBaseSceneBatch
    let key := mkKey b (hashOf b)
    let hc := getOrCreatePipelineState create cache key
    resolveDirty create hashOf
      (batches.set i { b with pipelineState := some hc.1 }) hc.2
      (log ++ [key]) rest

/-- Result of `ScenePass::CollectUnlitBatches`: the final
`unlitBaseBatches_`, the dirty index list, the final pipeline state
cache, and the log of get-or-create invocations. -/
structure UnlitCollectResult where
  batches : List BaseSceneBatch
  dirty : List Nat
  cache : ScenePipelineStateCache
  created : List ScenePipelineStateKey
deriving DecidableEq

/-- Embeds `ScenePass::CollectUnlitBatches` (ScenePass.cpp:115-145). Parallel
phase: every intermediate batch becomes a base batch with light index
`M_MAX_UNSIGNED`, its pipeline state is looked up with light hash 0
against the pre-barrier cache, and misses are recorded in the dirty list.
Post-barrier phase: dirty batches are resolved via get-or-create. -/
def collectUnlitBatches (fr : FrameData)
    (create : ScenePipelineStateKey → Nat) (cache0 : ScenePipelineStateCache)
    (ibs : List IntermediateSceneBatch) : UnlitCollectResult :=
  let batches1 := ibs.map (fun ib =>
    let b := mkBaseSceneBatch fr M_MAX_UNSIGNED ib
    { b with pipelineState := cacheLookup cache0 (mkKey b 0) })
  let dirty := dirtyIndices batches1
  let r := resolveDirty create (fun _ => 0) batches1 cache0 [] dirty
  ⟨r.1, dirty, r.2.1, r.2.2⟩

/-- Result of `ScenePass::CollectLitBatches`: final `litBaseBatches_` and
`lightBatches_`, the two dirty index lists, the final caches and the
get-or-create logs. -/
structure LitCollectResult where
  baseBatches : List BaseSceneBatch
  lightBatches : List BaseSceneBatch
  baseDirty : List Nat
  lightDirty : List Nat
  litCache : ScenePipelineStateCache
  addlCache : ScenePipelineStateCache
  litCreated : List ScenePipelineStateKey
  addlCreated : List ScenePipelineStateKey
deriving DecidableEq

/-- The per-batch body of the parallel phase of
`ScenePass::CollectLitBatches` (ScenePass.cpp:160-189), returning the base
batch and the light batches it appends. Note the source reads
`sceneBatch.drawableIndex_` (ScenePass.cpp:165) from the freshly resized
`litBaseBatches_` slot before `sceneBatch` is assigned from the
intermediate batch (ScenePass.cpp:171), so the pixel light list consulted
is that of the default-constructed slot, not of the batch's drawable. -/
def litBatchStep (fr : FrameData) (litCache0 addlCache0 : ScenePipelineStateCache)
    (mainLightIndex mainLightHash : Nat) (sceneLights : List Nat)
    (drawableLighting : List (List (Int × Nat)))
    (ib : IntermediateSceneBatch) : BaseSceneBatch × List BaseSceneBatch :=
  let pixelLights :=
    drawableLighting.getD defaultBaseSceneBatch.drawableIndex []
  let hasLitBase :=
    !pixelLights.isEmpty && ((pixelLights.headD (0, 0)).2 == mainLightIndex)
  let baseLightIndex := if hasLitBase then mainLightIndex else M_MAX_UNSIGNED
  let baseLightHash := if hasLitBase then mainLightHash else 0
  let b0 := mkBaseSceneBatch fr baseLightIndex ib
  let b := { b0 with pipelineState := cacheLookup litCache0 (mkKey b0 baseLightHash) }
  let lightBatches :=
    ((List.range pixelLights.length).drop (if hasLitBase then 1 else 0)).map
      (fun j =>
        let lightIndex := (pixelLights.getD j (0, 0)).2
        let lightHash := sceneLights.getD lightIndex 0
        let lb := { b with lightIndex := lightIndex, pass := ib.additionalPass }
        { lb with pipelineState := cacheLookup addlCache0 (mkKey lb lightHash) })
  (b, lightBatches)

/-- Embeds `ScenePass::CollectLitBatches` (ScenePass.cpp:147-226). The parallel
phase produces `litBaseBatches_` and `lightBatches_` with pre-barrier
cache lookups and records the misses; the two post-barrier loops resolve
the dirty base batches (all with the main light's hash, ScenePass.cpp:198)
and the dirty light batches (each with its own light's hash). -/
def collectLitBatches (fr : FrameData)
    (createLit createAddl : ScenePipelineStateKey → Nat)
    (litCache0 addlCache0 : ScenePipelineStateCache)
    (mainLightIndex : Nat) (sceneLights : List Nat)
    (drawableLighting : List (List (Int × Nat)))
    (ibs : List IntermediateSceneBatch) : LitCollectResult :=
  let mainLightHash :=
    if mainLightIndex ≠ M_MAX_UNSIGNED then sceneLights.getD mainLightIndex 0
    else 0
  let step := litBatchStep fr litCache0 addlCache0 mainLightIndex mainLightHash
    sceneLights drawableLighting
  let baseBatches := ibs.map (fun ib => (step ib).1)
  let lightBatches := (ibs.map (fun ib => (step ib).2)).flatten
  let baseDirty := dirtyIndices baseBatches
  let lightDirty := dirtyIndices lightBatches
  let baseResolveHash :=
    if mainLightIndex ≠ M_MAX_UNSIGNED then mainLightHash else 0
  let rBase := resolveDirty createLit (fun _ => baseResolveHash)
    baseBatches litCache0 [] baseDirty
  let rLight := resolveDirty createAddl
    (fun b => sceneLights.getD b.lightIndex 0)
    lightBatches addlCache0 [] lightDirty
  ⟨rBase.1, rLight.1, baseDirty, lightDirty, rBase.2.1, rLight.2.1,
    rBase.2.2, rLight.2.2⟩

/-- Embeds `ScenePass::CollectSceneBatches` (ScenePass.cpp:108-113): collect the
unlit batches, then the lit batches. The three pipeline state caches are
distinct members of the pass. -/
def collectSceneBatches (fr : FrameData)
    (createUnlit createLit createAddl : ScenePipelineStateKey → Nat)
    (unlitCache0 litCache0 addlCache0 : ScenePipelineStateCache)
    (mainLightIndex : Nat) (sceneLights : List Nat)
    (drawableLighting : List (List (Int × Nat)))
    (unlitIbs litIbs : List IntermediateSceneBatch) :
    UnlitCollectResult × LitCollectResult :=
  (collectUnlitBatches fr createUnlit unlitCache0 unlitIbs,
    collectLitBatches fr createLit createAddl litCache0 addlCache0
      mainLightIndex sceneLights drawableLighting litIbs)

theorem getD_set_self {α : Type} (l : List α) (i : Nat) (a d : α)
    (h : i < l.length) : (l.set i a).getD i d = a := by
  simp [List.getD_eq_getElem?_getD, List.getElem?_set, h]

theorem getD_set_ne {α : Type} (l : List α) (i j : Nat) (a d : α)
    (h : i ≠ j) : (l.set i a).getD j d = l.getD j d := by
  simp [List.getD_eq_getElem?_getD, List.getElem?_set, h]

theorem mkKey_set_pipelineState (b : BaseSceneBatch) (x : Option Nat)
    (h : Nat) : mkKey { b with pipelineState := x } h = mkKey b h := rfl

theorem cacheLookup_getOrCreate_self (create : ScenePipelineStateKey → Nat)
    (c : ScenePipelineStateCache) (k : ScenePipelineStateKey) :
    cacheLookup (getOrCreatePipelineState create c k).2 k
      = some (getOrCreatePipelineState create c k).1 := by
  unfold getOrCreatePipelineState
  cases h : cacheLookup c k with
  | some v => simp [h]
  | none => simp [cacheLookup, List.find?]

theorem cacheLookup_getOrCreate_mono (create : ScenePipelineStateKey → Nat)
    (c : ScenePipelineStateCache) (k k' : ScenePipelineStateKey) (h : Nat)
    (hl : cacheLookup c k = some h) :
    cacheLookup (getOrCreatePipelineState create c k').2 k = some h := by
  unfold getOrCreatePipelineState
  cases h2 : cacheLookup c k' with
  | some v => simpa using hl
  | none =>
    have hne : k ≠ k' := by
      rintro rfl
      rw [hl] at h2
      cases h2
    simpa [cacheLookup, List.find?, Ne.symm hne] using hl

theorem resolveDirty_length (create : ScenePipelineStateKey → Nat)
    (hashOf : BaseSceneBatch → Nat) :
    ∀ (l : List Nat) (batches : List BaseSceneBatch)
      (cache : ScenePipelineStateCache) (log : List ScenePipelineStateKey),
    (resolveDirty create hashOf batches cache log l).1.length
      = batches.length := by
  intro l
  induction l with
  | nil => intro batches cache log; simp [resolveDirty]
  | cons i rest ih =>
    intro batches cache log
    simp [resolveDirty, ih]

theorem resolveDirty_getD_not_mem (create : ScenePipelineStateKey → Nat)
    (hashOf : BaseSceneBatch → Nat) :
    ∀ (l : List Nat) (batches : List BaseSceneBatch)
      (cache : ScenePipelineStateCache) (log : List ScenePipelineStateKey)
      (j : Nat), j ∉ l →
    (resolveDirty create hashOf batches cache log l).1.getD j defaultBaseSceneBatch
      = batches.getD j defaultBaseSceneBatch := by
  intro l
  induction l with
  | nil => intro batches cache log j _; simp [resolveDirty]
  | cons i rest ih =>
    intro batches cache log j hj
    have hji : j ≠ i := fun h => hj (h ▸ List.mem_cons_self i rest)
    have hjr : j ∉ rest := fun h => hj (List.mem_cons_of_mem i h)
    show (resolveDirty create hashOf _ _ _ rest).1.getD j defaultBaseSceneBatch = _
    rw [ih _ _ _ _ hjr, getD_set_ne _ _ _ _ _ (Ne.symm hji)]

theorem resolveDirty_lookup_mono (create : ScenePipelineStateKey → Nat)
    (hashOf : BaseSceneBatch → Nat) :
    ∀ (l : List Nat) (batches : List BaseSceneBatch)
      (cache : ScenePipelineStateCache) (log : List ScenePipelineStateKey)
      (k : ScenePipelineStateKey) (h : Nat), cacheLookup cache k = some h →
    cacheLookup (resolveDirty create hashOf batches cache log l).2.1 k = some h := by
  intro l
  induction l with
  | nil => intro batches cache log k h hl; simpa [resolveDirty] using hl
  | cons i rest ih =>
    intro batches cache log k h hl
    exact ih _ _ _ _ _ (cacheLookup_getOrCreate_mono create cache k _ h hl)

theorem resolveDirty_slot_key (create : ScenePipelineStateKey → Nat)
    (hashOf : BaseSceneBatch → Nat) :
    ∀ (l : List Nat) (batches : List BaseSceneBatch)
      (cache : ScenePipelineStateCache) (log : List ScenePipelineStateKey)
      (j h : Nat),
    mkKey ((resolveDirty create hashOf batches cache log l).1.getD j
        defaultBaseSceneBatch) h
      = mkKey (batches.getD j defaultBaseSceneBatch) h := by
  intro l
  induction l with
  | nil => intro batches cache log j h; rfl
  | cons i rest ih =>
    intro batches cache log j h
    simp only [resolveDirty]
    rw [ih]
    by_cases hlen : i < batches.length
    · by_cases hji : j = i
      · subst hji
        rw [getD_set_self _ _ _ _ hlen, mkKey_set_pipelineState]
      · rw [getD_set_ne _ _ _ _ _ (fun hh => hji hh.symm)]
    · rw [List.set_eq_of_length_le (Nat.le_of_not_lt hlen)]

theorem resolveDirty_slot_hashOf (create : ScenePipelineStateKey → Nat)
    (hashOf : BaseSceneBatch → Nat)
    (hHash : ∀ b x, hashOf { b with pipelineState := x } = hashOf b) :
    ∀ (l : List Nat) (batches : List BaseSceneBatch)
      (cache : ScenePipelineStateCache) (log : List ScenePipelineStateKey)
      (j : Nat),
    hashOf ((resolveDirty create hashOf batches cache log l).1.getD j
        defaultBaseSceneBatch)
      = hashOf (batches.getD j defaultBaseSceneBatch) := by
  intro l
  induction l with
  | nil => intro batches cache log j; rfl
  | cons i rest ih =>
    intro batches cache log j
    simp only [resolveDirty]
    rw [ih]
    by_cases hlen : i < batches.length
    · by_cases hji : j = i
      · subst hji
        rw [getD_set_self _ _ _ _ hlen, hHash]
      · rw [getD_set_ne _ _ _ _ _ (fun hh => hji hh.symm)]
    · rw [List.set_eq_of_length_le (Nat.le_of_not_lt hlen)]

theorem resolveDirty_isSome_mono (create : ScenePipelineStateKey → Nat)
    (hashOf : BaseSceneBatch → Nat) :
    ∀ (l : List Nat) (batches : List BaseSceneBatch)
      (cache : ScenePipelineStateCache) (log : List ScenePipelineStateKey)
      (j : Nat),
    ((batches.getD j defaultBaseSceneBatch).pipelineState).isSome = true →
    (((resolveDirty create hashOf batches cache log l).1.getD j
      defaultBaseSceneBatch).pipelineState).isSome = true := by
  intro l
  induction l with
  | nil => intro batches cache log j hj; simpa [resolveDirty] using hj
  | cons i rest ih =>
    intro batches cache log j hj
    show (((resolveDirty create hashOf (batches.set i _) _ _ rest).1.getD j
      defaultBaseSceneBatch).pipelineState).isSome = true
    apply ih
    by_cases hlen : i < batches.length
    · by_cases hji : j = i
      · subst hji
        rw [getD_set_self _ _ _ _ hlen]
        rfl
      · rw [getD_set_ne _ _ _ _ _ (fun h => hji h.symm)]
        exact hj
    · rw [List.set_eq_of_length_le (Nat.le_of_not_lt hlen)]
      exact hj

theorem resolveDirty_mem_isSome (create : ScenePipelineStateKey → Nat)
    (hashOf : BaseSceneBatch → Nat) :
    ∀ (l : List Nat) (batches : List BaseSceneBatch)
      (cache : ScenePipelineStateCache) (log : List ScenePipelineStateKey)
      (i : Nat), i ∈ l → i < batches.length →
    (((resolveDirty create hashOf batches cache log l).1.getD i
      defaultBaseSceneBatch).pipelineState).isSome = true := by
  intro l
  induction l with
  | nil => intro batches cache log i hi; cases hi
  | cons j rest ih =>
    intro batches cache log i hi hlen
    by_cases hir : i ∈ rest
    · show (((resolveDirty create hashOf (batches.set j _) _ _ rest).1.getD i
        defaultBaseSceneBatch).pipelineState).isSome = true
      exact ih _ _ _ _ hir (by simpa using hlen)
    · have hij : i = j := by
        rcases List.mem_cons.mp hi with h | h
        · exact h
        · exact absurd h hir
      subst hij
      show (((resolveDirty create hashOf (batches.set i _) _ _ rest).1.getD i
        defaultBaseSceneBatch).pipelineState).isSome = true
      apply resolveDirty_isSome_mono
      rw [getD_set_self _ _ _ _ hlen]
      rfl

theorem resolveDirty_log (create : ScenePipelineStateKey → Nat)
    (hashOf : BaseSceneBatch → Nat)
    (hHash : ∀ b x, hashOf { b with pipelineState := x } = hashOf b) :
    ∀ (l : List Nat) (batches : List BaseSceneBatch)
      (cache : ScenePipelineStateCache) (log : List ScenePipelineStateKey),
    (resolveDirty create hashOf batches cache log l).2.2
      = log ++ l.map (fun i =>
          mkKey (batches.getD i defaultBaseSceneBatch)
            (hashOf (batches.getD i defaultBaseSceneBatch))) := by
  intro l
  induction l with
  | nil => intro batches cache log; simp [resolveDirty]
  | cons i rest ih =>
    intro batches cache log
    show (resolveDirty create hashOf (batches.set i _) _ (log ++ [_]) rest).2.2 = _
    rw [ih]
    have hmap : rest.map (fun j =>
        mkKey ((batches.set i { batches.getD i defaultBaseSceneBatch with
            pipelineState := some (getOrCreatePipelineState create cache
              (mkKey (batches.getD i defaultBaseSceneBatch)
                (hashOf (batches.getD i defaultBaseSceneBatch)))).1 }).getD j
          defaultBaseSceneBatch)
          (hashOf ((batches.set i { batches.getD i defaultBaseSceneBatch with
            pipelineState := some (getOrCreatePipelineState create cache
              (mkKey (batches.getD i defaultBaseSceneBatch)
                (hashOf (batches.getD i defaultBaseSceneBatch)))).1 }).getD j
          defaultBaseSceneBatch)))
        = rest.map (fun j =>
          mkKey (batches.getD j defaultBaseSceneBatch)
            (hashOf (batches.getD j defaultBaseSceneBatch))) := by
      apply List.map_eq_map_iff.mpr
      intro j _
      by_cases hlen : i < batches.length
      · by_cases hji : j = i
        · subst hji
          rw [getD_set_self _ _ _ _ hlen, mkKey_set_pipelineState]
          exact congrArg _ (hHash _ _)
        · rw [getD_set_ne _ _ _ _ _ (fun h => hji h.symm)]
      · rw [List.set_eq_of_length_le (Nat.le_of_not_lt hlen)]
    rw [hmap]
    simp

theorem resolveDirty_mem_resolved (create : ScenePipelineStateKey → Nat)
    (hashOf : BaseSceneBatch → Nat)
    (hHash : ∀ b x, hashOf { b with pipelineState := x } = hashOf b) :
    ∀ (l : List Nat) (batches : List BaseSceneBatch)
      (cache : ScenePipelineStateCache) (log : List ScenePipelineStateKey)
      (i : Nat), l.Nodup → i ∈ l → i < batches.length →
    ((resolveDirty create hashOf batches cache log l).1.getD i
        defaultBaseSceneBatch).pipelineState
      = cacheLookup (resolveDirty create hashOf batches cache log l).2.1
          (mkKey ((resolveDirty create hashOf batches cache log l).1.getD i
              defaultBaseSceneBatch)
            (hashOf ((resolveDirty create hashOf batches cache log l).1.getD i
              defaultBaseSceneBatch))) := by
  intro l
  induction l with
  | nil => intro batches cache log i _ hi; cases hi
  | cons j rest ih =>
    intro batches cache log i hnd hi hlen
    have hndr : rest.Nodup := (List.nodup_cons.mp hnd).2
    have hjr : j ∉ rest := (List.nodup_cons.mp hnd).1
    by_cases hir : i ∈ rest
    · show ((resolveDirty create hashOf (batches.set j _) _ _ rest).1.getD i
        defaultBaseSceneBatch).pipelineState = _
      exact ih _ _ _ _ hndr hir (by simpa using hlen)
    · have hij : i = j := by
        rcases List.mem_cons.mp hi with h | h
        · exact h
        · exact absurd h hir
      subst hij
      simp only [resolveDirty]
      rw [resolveDirty_getD_not_mem create hashOf rest _ _ _ i hir,
        getD_set_self _ _ _ _ hlen]
      have h1 : hashOf { batches.getD i defaultBaseSceneBatch with
          pipelineState := some (getOrCreatePipelineState create cache
            (mkKey (batches.getD i defaultBaseSceneBatch)
              (hashOf (batches.getD i defaultBaseSceneBatch)))).1 }
          = hashOf (batches.getD i defaultBaseSceneBatch) := hHash _ _
      rw [h1]
      exact (resolveDirty_lookup_mono create hashOf rest _ _ _
        (mkKey (batches.getD i defaultBaseSceneBatch)
          (hashOf (batches.getD i defaultBaseSceneBatch)))
        (getOrCreatePipelineState create cache
          (mkKey (batches.getD i defaultBaseSceneBatch)
            (hashOf (batches.getD i defaultBaseSceneBatch)))).1
        (cacheLookup_getOrCreate_self create cache _)).symm

theorem getD_eq_getElem {α : Type} (l : List α) (i : Nat) (d : α)
    (h : i < l.length) : l.getD i d = l[i] := by
  simp [List.getD_eq_getElem?_getD, List.getElem?_eq_getElem, h]

theorem mem_dirtyIndices (batches : List BaseSceneBatch) (i : Nat) :
    i ∈ dirtyIndices batches ↔
      i < batches.length ∧
        ((batches.getD i defaultBaseSceneBatch).pipelineState).isNone = true := by
  simp [dirtyIndices, List.mem_filter, List.mem_range]

theorem dirtyIndices_nodup (batches : List BaseSceneBatch) :
    (dirtyIndices batches).Nodup :=
  List.Nodup.filter _ (List.nodup_range _)

theorem getOrCreate_fst_of_lookup (create : ScenePipelineStateKey → Nat)
    (c : ScenePipelineStateCache) (k : ScenePipelineStateKey) (h : Nat)
    (hl : cacheLookup c k = some h) :
    (getOrCreatePipelineState create c k).1 = h := by
  unfold getOrCreatePipelineState
  rw [hl]

theorem resolveDirty_dirtyIndices_some (create : ScenePipelineStateKey → Nat)
    (hashOf : BaseSceneBatch → Nat) (batches : List BaseSceneBatch)
    (cache : ScenePipelineStateCache) (log : List ScenePipelineStateKey)
    (i : Nat) (hi : i < batches.length) :
    (((resolveDirty create hashOf batches cache log
        (dirtyIndices batches)).1.getD i defaultBaseSceneBatch).pipelineState).isSome
      = true := by
  by_cases hd : ((batches.getD i defaultBaseSceneBatch).pipelineState).isNone = true
  · exact resolveDirty_mem_isSome create hashOf (dirtyIndices batches)
      batches cache log i ((mem_dirtyIndices batches i).mpr ⟨hi, hd⟩) hi
  · apply resolveDirty_isSome_mono
    cases hh : (batches.getD i defaultBaseSceneBatch).pipelineState with
    | none => rw [hh] at hd; simp at hd
    | some v => rfl

theorem resolveDirty_all_some (create : ScenePipelineStateKey → Nat)
    (hashOf : BaseSceneBatch → Nat) (batches : List BaseSceneBatch)
    (cache : ScenePipelineStateCache) (log : List ScenePipelineStateKey)
    (b : BaseSceneBatch)
    (hb : b ∈ (resolveDirty create hashOf batches cache log
      (dirtyIndices batches)).1) :
    b.pipelineState ≠ none := by
  rcases List.mem_iff_getElem.mp hb with ⟨i, hlen, hget⟩
  have hlen' : i < batches.length := by
    rw [resolveDirty_length] at hlen
    exact hlen
  have hsome := resolveDirty_dirtyIndices_some create hashOf batches cache log i hlen'
  rw [getD_eq_getElem _ _ _ hlen, hget] at hsome
  intro hnone
  rw [hnone] at hsome
  simp at hsome

/-- Claim C6: in the unlit classifier path, a batch index enters the dirty
list iff the pre-barrier cache lookup for its key (light hash 0) missed;
the get-or-create invocations are exactly the dirty batches' keys, in
order; and after the post-barrier pass every dirty batch's pipeline state
equals the cache's get-or-create result for its key. -/
theorem collectUnlitBatches_dirty_protocol (fr : FrameData)
    (create : ScenePipelineStateKey → Nat) (cache0 : ScenePipelineStateCache)
    (ibs : List IntermediateSceneBatch) :
    (∀ i, i < (collectUnlitBatches fr create cache0 ibs).batches.length →
      (i ∈ (collectUnlitBatches fr create cache0 ibs).dirty ↔
        cacheLookup cache0
          (mkKey ((collectUnlitBatches fr create cache0 ibs).batches.getD i
            defaultBaseSceneBatch) 0) = none)) ∧
    ((collectUnlitBatches fr create cache0 ibs).created
      = (collectUnlitBatches fr create cache0 ibs).dirty.map (fun i =>
          mkKey ((collectUnlitBatches fr create cache0 ibs).batches.getD i
            defaultBaseSceneBatch) 0)) ∧
    (∀ i ∈ (collectUnlitBatches fr create cache0 ibs).dirty,
      ((collectUnlitBatches fr create cache0 ibs).batches.getD i
          defaultBaseSceneBatch).pipelineState
        = some ((getOrCreatePipelineState create
            (collectUnlitBatches fr create cache0 ibs).cache
            (mkKey ((collectUnlitBatches fr create cache0 ibs).batches.getD i
              defaultBaseSceneBatch) 0)).1)) := by
  simp only [collectUnlitBatches]
  have hphase : ∀ i, i < (ibs.map (fun ib =>
      let b := mkBaseSceneBatch fr M_MAX_UNSIGNED ib
      { b with pipelineState := cacheLookup cache0 (mkKey b 0) })).length →
      ((ibs.map (fun ib =>
        let b := mkBaseSceneBatch fr M_MAX_UNSIGNED ib
        { b with pipelineState := cacheLookup cache0 (mkKey b 0) })).getD i
          defaultBaseSceneBatch).pipelineState
        = cacheLookup cache0
            (mkKey ((ibs.map (fun ib =>
              let b := mkBaseSceneBatch fr M_MAX_UNSIGNED ib
              { b with pipelineState := cacheLookup cache0 (mkKey b 0) })).getD i
              defaultBaseSceneBatch) 0) := by
    intro i hi
    rw [getD_eq_getElem _ _ _ hi]
    rw [List.getElem_map]
    rfl
  refine ⟨?_, ?_, ?_⟩
  · intro i hi
    rw [resolveDirty_length] at hi
    rw [mem_dirtyIndices]
    rw [resolveDirty_slot_key]
    constructor
    · rintro ⟨hlt, hnone⟩
      rw [hphase i hlt] at hnone
      simpa using hnone
    · intro hnone
      refine ⟨hi, ?_⟩
      rw [hphase i hi, hnone]
      rfl
  · rw [resolveDirty_log create (fun _ => 0) (fun _ _ => rfl)]
    simp only [List.nil_append]
    apply List.map_eq_map_iff.mpr
    intro i _
    rw [resolveDirty_slot_key]
  · intro i hi
    have hnd := dirtyIndices_nodup (ibs.map (fun ib =>
      let b := mkBaseSceneBatch fr M_MAX_UNSIGNED ib
      { b with pipelineState := cacheLookup cache0 (mkKey b 0) }))
    have hlt : i < (ibs.map (fun ib =>
      let b := mkBaseSceneBatch fr M_MAX_UNSIGNED ib
      { b with pipelineState := cacheLookup cache0 (mkKey b 0) })).length :=
      ((mem_dirtyIndices _ i).mp hi).1
    have hres := resolveDirty_mem_resolved create (fun _ => 0) (fun _ _ => rfl)
      (dirtyIndices _) _ cache0 [] i hnd hi hlt
    have hsome := resolveDirty_mem_isSome create (fun _ => 0)
      (dirtyIndices _) _ cache0 [] i hi hlt
    rcases Option.isSome_iff_exists.mp hsome with ⟨v, hv⟩
    rw [hv] at hres ⊢
    rw [getOrCreate_fst_of_lookup create _ _ v hres.symm]

/-- Witness for claim C6 at a concrete input: one intermediate batch, an
empty cache, so the single batch is dirty and resolved by get-or-create. -/
theorem collectUnlitBatches_dirty_protocol_witness :
    0 ∈ (collectUnlitBatches ⟨fun _ _ => 0, fun _ _ => none, 7⟩ (fun _ => 3) []
        [⟨some 1, 0, some 10, none⟩]).dirty ∧
    ((collectUnlitBatches ⟨fun _ _ => 0, fun _ _ => none, 7⟩ (fun _ => 3) []
        [⟨some 1, 0, some 10, none⟩]).batches.getD 0
          defaultBaseSceneBatch).pipelineState
      = some ((getOrCreatePipelineState (fun _ => 3)
          (collectUnlitBatches ⟨fun _ _ => 0, fun _ _ => none, 7⟩ (fun _ => 3) []
            [⟨some 1, 0, some 10, none⟩]).cache
          (mkKey ((collectUnlitBatches ⟨fun _ _ => 0, fun _ _ => none, 7⟩
              (fun _ => 3) [] [⟨some 1, 0, some 10, none⟩]).batches.getD 0
            defaultBaseSceneBatch) 0)).1) := by
  have hd : 0 ∈ (collectUnlitBatches ⟨fun _ _ => 0, fun _ _ => none, 7⟩
      (fun _ => 3) [] [⟨some 1, 0, some 10, none⟩]).dirty := by decide
  exact ⟨hd, (collectUnlitBatches_dirty_protocol ⟨fun _ _ => 0, fun _ _ => none, 7⟩
    (fun _ => 3) [] [⟨some 1, 0, some 10, none⟩]).2.2 0 hd⟩

/-- Claim C2: after `ScenePass::CollectSceneBatches` completes, every
final scene batch — unlit base, lit base and additional light batch —
carries a non-null pipeline state: every pre-barrier miss was recorded
dirty and resolved by the post-barrier get-or-create pass. -/
theorem collectSceneBatches_states_resolved (fr : FrameData)
    (createUnlit createLit createAddl : ScenePipelineStateKey → Nat)
    (unlitCache0 litCache0 addlCache0 : ScenePipelineStateCache)
    (mainLightIndex : Nat) (sceneLights : List Nat)
    (drawableLighting : List (List (Int × Nat)))
    (unlitIbs litIbs : List IntermediateSceneBatch) :
    (∀ b ∈ (collectSceneBatches fr createUnlit createLit createAddl
        unlitCache0 litCache0 addlCache0 mainLightIndex sceneLights
        drawableLighting unlitIbs litIbs).1.batches,
      b.pipelineState ≠ none) ∧
    (∀ b ∈ (collectSceneBatches fr createUnlit createLit createAddl
        unlitCache0 litCache0 addlCache0 mainLightIndex sceneLights
        drawableLighting unlitIbs litIbs).2.baseBatches,
      b.pipelineState ≠ none) ∧
    (∀ b ∈ (collectSceneBatches fr createUnlit createLit createAddl
        unlitCache0 litCache0 addlCache0 mainLightIndex sceneLights
        drawableLighting unlitIbs litIbs).2.lightBatches,
      b.pipelineState ≠ none) := by
  simp only [collectSceneBatches, collectUnlitBatches, collectLitBatches]
  refine ⟨?_, ?_, ?_⟩
  · intro b hb
    exact resolveDirty_all_some createUnlit _ _ _ _ b hb
  · intro b hb
    exact resolveDirty_all_some createLit _ _ _ _ b hb
  · intro b hb
    exact resolveDirty_all_some createAddl _ _ _ _ b hb

/-- Witness for claim C2: a concrete frame with one unlit batch, one lit
batch, one visible light and empty caches; the first unlit base batch ends
with a non-null pipeline state. -/
theorem collectSceneBatches_states_resolved_witness :
    ((collectSceneBatches ⟨fun _ _ => 0, fun _ _ => none, 7⟩
        (fun _ => 3) (fun _ => 4) (fun _ => 5) [] [] [] 0 [11]
        [[(1, 0)], []] [⟨some 1, 0, some 10, none⟩]
        [⟨some 0, 0, some 20, some 21⟩]).1.batches.getD 0
      defaultBaseSceneBatch).pipelineState ≠ none := by
  apply (collectSceneBatches_states_resolved ⟨fun _ _ => 0, fun _ _ => none, 7⟩
    (fun _ => 3) (fun _ => 4) (fun _ => 5) [] [] [] 0 [11]
    [[(1, 0)], []] [⟨some 1, 0, some 10, none⟩]
    [⟨some 0, 0, some 20, some 21⟩]).1
  decide

/-- Claim C1 failing evaluation: `CollectLitBatches` reads
`sceneBatch.drawableIndex_` from the freshly resized slot before
`sceneBatch` is assigned (ScenePass.cpp:165 versus 171), so the pixel
light list consulted is `drawableLighting[0]`, never the batch drawable's.
First conjunct: the sole lit batch belongs to drawable 1 whose top ranked
pixel light is the main light 0, yet the base batch carries light index
"none" (and no light batches are emitted, third conjunct). Second
conjunct: with the accumulators swapped — drawable 1's accumulator empty,
drawable 0's holding the main light — the base batch wrongly carries the
main light index 0. -/
theorem collectLitBatches_reads_stale_drawableIndex :
    ((collectLitBatches ⟨fun _ _ => 0, fun _ _ => none, 0⟩ (fun _ => 1)
        (fun _ => 1) [] [] 0 [7] [[], [(1, 0)]]
        [⟨some 1, 0, some 10, some 11⟩]).baseBatches.map
      (fun b => b.lightIndex) = [M_MAX_UNSIGNED]) ∧
    ((collectLitBatches ⟨fun _ _ => 0, fun _ _ => none, 0⟩ (fun _ => 1)
        (fun _ => 1) [] [] 0 [7] [[(1, 0)], []]
        [⟨some 1, 0, some 10, some 11⟩]).baseBatches.map
      (fun b => b.lightIndex) = [0]) ∧
    ((collectLitBatches ⟨fun _ _ => 0, fun _ _ => none, 0⟩ (fun _ => 1)
        (fun _ => 1) [] [] 0 [7] [[], [(1, 0)]]
        [⟨some 1, 0, some 10, some 11⟩]).lightBatches = []) := by
  decide

/-- Modelled from the spec: drawable kind flag for geometry
(`DRAWABLE_GEOMETRY`, declared outside the two source files). -/
def DRAWABLE_GEOMETRY : Nat := 1

/-- Modelled from the spec: drawable kind flag for lights
(`DRAWABLE_LIGHT`, declared outside the two source files). -/
def DRAWABLE_LIGHT : Nat := 2

/-- Modelled from the spec: transient index trait bit "updated". -/
def DrawableUpdated : Nat := 1

/-- Modelled from the spec: transient index trait bit "visible
geometry". -/
def DrawableVisibleGeometry : Nat := 2

/-- Modelled from the spec: transient index trait bit "forward lit". -/
def ForwardLit : Nat := 4

/-- A drawable as observed by the lit-geometry octree queries: its stable
index, its light mask, and an opaque bounding box handle (the geometric
containment tests are external collaborators). -/
structure QueryDrawable where
  drawableIndex : Nat
  lightMask : Nat
  boundingBox : Nat
deriving DecidableEq

/-- Embeds `PointLightLitGeometriesQuery::TestDrawables`
(SceneBatchCollector.cpp:62-77): keep a candidate iff it is marked
visible geometry in the transient index, its light mask intersects the
light's effective mask, and the group is fully inside the sphere or the
drawable's world bounding box intersects it. -/
def pointLightTestDrawables (traits : List Nat) (lightMask : Nat)
    (sphereIsInsideFast : Nat → Bool) (inside : Bool)
    (ds : List QueryDrawable) : List QueryDrawable :=
  ds.filter (fun d =>
    ((traits.getD d.drawableIndex 0) &&& DrawableVisibleGeometry != 0)
    && (d.lightMask &&& lightMask != 0)
    && (inside || sphereIsInsideFast d.boundingBox))

/-- Embeds `SpotLightLitGeometriesQuery::TestDrawables`
(SceneBatchCollector.cpp:97-112): identical to the point query with the
light's frustum as test volume. -/
def spotLightTestDrawables (traits : List Nat) (lightMask : Nat)
    (frustumIsInsideFast : Nat → Bool) (inside : Bool)
    (ds : List QueryDrawable) : List QueryDrawable :=
  ds.filter (fun d =>
    ((traits.getD d.drawableIndex 0) &&& DrawableVisibleGeometry != 0)
    && (d.lightMask &&& lightMask != 0)
    && (inside || frustumIsInsideFast d.boundingBox))

/-- The accumulated result of a point light query: the octree traversal
hands the candidate drawables to `TestDrawables` in groups, each with its
"fully inside" flag; the kept candidates accumulate in order. -/
def pointLightQueryResult (traits : List Nat) (lightMask : Nat)
    (sphereIsInsideFast : Nat → Bool)
    (groups : List (Bool × List QueryDrawable)) : List QueryDrawable :=
  (groups.map (fun g =>
    pointLightTestDrawables traits lightMask sphereIsInsideFast g.1 g.2)).flatten

/-- The accumulated result of a spot light query, by groups as for the
point query. -/
def spotLightQueryResult (traits : List Nat) (lightMask : Nat)
    (frustumIsInsideFast : Nat → Bool)
    (groups : List (Bool × List QueryDrawable)) : List QueryDrawable :=
  (groups.map (fun g =>
    spotLightTestDrawables traits lightMask frustumIsInsideFast g.1 g.2)).flatten

/-- The rendering pass types of `ScenePassType`. -/
inductive ScenePassType where
  | Unlit
  | ForwardLitBase
  | ForwardUnlitBase
deriving DecidableEq

/-- Embeds `ScenePassDescription`: pass type plus the three configured pass
names. -/
structure ScenePassDescription where
  passType : ScenePassType
  basePassName : String
  firstLightPassName : String
  additionalLightPassName : String
deriving DecidableEq

/-- Embeds `SceneBatchCollector::PassData` (SceneBatchCollector.cpp:133-198):
the description, the three resolved pass indices, and the per-pass
intermediate batch buckets. -/
structure PassData where
  desc : ScenePassDescription
  basePassIndex : Nat
  firstLightPassIndex : Nat
  additionalLightPassIndex : Nat
  unlitBatches : List IntermediateSceneBatch
  litBatches : List IntermediateSceneBatch
deriving DecidableEq

/-- Embeds `PassData::CheckSubPasses` (SceneBatchCollector.cpp:155-160). -/
def PassData.checkSubPasses (pd : PassData)
    (hasBase hasFirstLight hasAdditionalLight : Bool) : Bool :=
  (decide (pd.basePassIndex ≠ M_MAX_UNSIGNED) == hasBase)
    && (decide (pd.firstLightPassIndex ≠ M_MAX_UNSIGNED) == hasFirstLight)
    && (decide (pd.additionalLightPassIndex ≠ M_MAX_UNSIGNED) == hasAdditionalLight)

/-- Embeds `PassData::IsValid` (SceneBatchCollector.cpp:163-176). -/
def PassData.isValid (pd : PassData) : Bool :=
  match pd.desc.passType with
  | ScenePassType.Unlit => pd.checkSubPasses true false false
  | ScenePassType.ForwardLitBase =>
    pd.checkSubPasses false true true || pd.checkSubPasses true true true
  | ScenePassType.ForwardUnlitBase => pd.checkSubPasses true false true

/-- Embeds `SceneBatchCollector::InitializePasses`
(SceneBatchCollector.cpp:301-323), with `Technique::GetPassIndex`
supplied as the external name-to-index registry. An invalid description
only trips `assert(0)` and a `continue` that skips the bucket `Clear`;
the pass is not removed from `passes_`. The buckets start empty here, so
the skipped `Clear` has no further effect in a single-frame model. -/
def initializePasses (getPassIndex : String → Nat)
    (descs : List ScenePassDescription) : List PassData :=
  descs.map (fun desc =>
    { desc := desc
      basePassIndex := getPassIndex desc.basePassName
      firstLightPassIndex := getPassIndex desc.firstLightPassName
      additionalLightPassIndex := getPassIndex desc.additionalLightPassName
      unlitBatches := []
      litBatches := [] })

/-- Embeds `PassData::CreateIntermediateSceneBatch`
(SceneBatchCollector.cpp:179-190). -/
def createIntermediateSceneBatch (passType : ScenePassType)
    (geometry : Option Nat) (sourceBatchIndex : Nat)
    (basePass firstLightPass additionalLightPass : Option Pass) :
    IntermediateSceneBatch :=
  if passType = ScenePassType.Unlit ∨ additionalLightPass = none then
    ⟨geometry, sourceBatchIndex, basePass, none⟩
  else if passType = ScenePassType.ForwardUnlitBase ∧ basePass ≠ none
      ∧ additionalLightPass ≠ none then
    ⟨geometry, sourceBatchIndex, basePass, additionalLightPass⟩
  else if passType = ScenePassType.ForwardLitBase ∧ firstLightPass ≠ none
      ∧ additionalLightPass ≠ none then
    ⟨geometry, sourceBatchIndex, firstLightPass, additionalLightPass⟩
  else
    ⟨none, 0, none, none⟩

/-- A material: its ordered technique entries. -/
structure Material where
  techniques : List TechniqueEntry
deriving DecidableEq

/-- A source batch of a drawable: geometry handle plus optional
material. -/
structure SourceBatch where
  geometry : Nat
  material : Option Material
deriving DecidableEq

/-- A drawable as observed by
`SceneBatchCollector::UpdateAndCollectSourceBatchesForThread`: stable
index, kind flags, draw distance and current distance, LOD distance,
source batches, and (for lights) whether the effective color equals
black and the effective light mask. Distances are compared only, so
they are `Int`; the black-color test abstracts the float color
comparison `lightColor.Equals(Color::BLACK)`. -/
structure Drawable where
  index : Nat
  flags : Nat
  drawDistance : Int
  distance : Int
  lodDistance : Int
  sourceBatches : List SourceBatch
  effectiveColorIsBlack : Bool
  lightMaskEffective : Nat
deriving DecidableEq

/-- Modelled from the spec: the `M_LARGE_VALUE` sentinel stored as the
Z range of "infinite" drawables such as skyboxes. -/
def M_LARGE_VALUE : Int := 100000000

/-- Frame-constant collector configuration: the effective material
quality, the renderer's default material, and the view-space Z range
evaluator (`DrawableZRangeEvaluator::Evaluate`, a camera-space float
computation abstracted as an oracle; `none` models an invalid range from
an "infinite" bounding box). -/
structure CollectorCfg where
  materialQuality : Int
  defaultMaterial : Material
  zRangeOf : Drawable → Option (Int × Int)

/-- The per-frame collector state touched by
`UpdateAndCollectSourceBatchesForThread`: transient traits and Z ranges,
the scene Z range accumulator, the visible geometry and visible light
collections, the per-pass buckets and the per-drawable light
accumulators. -/
structure CollectorState where
  traits : List Nat
  zRange : List (Int × Int)
  sceneZRange : List (Int × Int)
  visibleGeometries : List Drawable
  visibleLights : List Drawable
  passes : List PassData
  drawableLighting : List (List (Int × Nat))
deriving DecidableEq

/-- The per-pass body of the batch collection loop
(SceneBatchCollector.cpp:388-403): resolve the three passes of the
technique at the configured indices, build the intermediate batch, and
insert it into the lit bucket (flagging forward-lit) when it carries an
additional pass, else into the unlit bucket when it carries a base pass,
else drop it. Returns the updated pass and whether the forward-lit trait
is to be set. -/
def fillPass (d : Drawable) (sourceBatchIndex : Nat) (tech : Technique)
    (pd : PassData) : PassData × Bool :=
  let basePass := tech.GetPass pd.basePassIndex
  let firstLightPass := tech.GetPass pd.firstLightPassIndex
  let additionalLightPass := tech.GetPass pd.additionalLightPassIndex
  let sb := createIntermediateSceneBatch pd.desc.passType (some d.index)
    sourceBatchIndex basePass firstLightPass additionalLightPass
  if sb.additionalPass ≠ none then
    ({ pd with litBatches := pd.litBatches ++ [sb] }, true)
  else if sb.basePass ≠ none then
    ({ pd with unlitBatches := pd.unlitBatches ++ [sb] }, false)
  else
    (pd, false)

/-- Run `fillPass` over all configured passes, in order, collecting
whether any insertion flags the drawable forward-lit. -/
def fillPasses (d : Drawable) (sourceBatchIndex : Nat) (tech : Technique) :
    List PassData → List PassData × Bool
  | [] => ([], false)
  | pd :: rest =>
    let r := fillPass d sourceBatchIndex tech pd
    let rr := fillPasses d sourceBatchIndex tech rest
    (r.1 :: rr.1, r.2 || rr.2)

/-- The source batch loop (SceneBatchCollector.cpp:377-405): per source
batch, resolve the material (default fallback) and the technique; a
missing technique drops the batch; otherwise fill every pass and set the
forward-lit trait when some pass inserted a lit batch. -/
def collectSourceBatches (cfg : CollectorCfg) (d : Drawable) :
    Nat → List SourceBatch → CollectorState → CollectorState
  | _, [], st => st
  | i, sb :: rest, st =>
    let material := sb.material.getD cfg.defaultMaterial
    match findTechnique cfg.materialQuality d.lodDistance material.techniques with
    | none => collectSourceBatches cfg d (i + 1) rest st
    | some tech =>
      let fp := fillPasses d i tech st.passes
      let st :=
        { st with
          passes := fp.1
          traits :=
            if fp.2 then
              st.traits.set d.index ((st.traits.getD d.index 0) ||| ForwardLit)
            else st.traits }
      collectSourceBatches cfg d (i + 1) rest st

/-- The body of `UpdateAndCollectSourceBatchesForThread` after the draw
distance check (SceneBatchCollector.cpp:358-419): geometry drawables get
a Z range, the visible-geometry trait and entry, their source batches are
collected and their light accumulator is reset; light drawables are
collected into the visible light list unless their effective color is
black or their effective mask is zero. -/
def processDrawable (cfg : CollectorCfg) (st : CollectorState)
    (d : Drawable) : CollectorState :=
  if d.flags &&& DRAWABLE_GEOMETRY ≠ 0 then
    let st :=
      match cfg.zRangeOf d with
      | none =>
        { st with zRange := st.zRange.set d.index (M_LARGE_VALUE, M_LARGE_VALUE) }
      | some zr =>
        { st with
          zRange := st.zRange.set d.index zr
          sceneZRange := st.sceneZRange ++ [zr] }
    let st :=
      { st with
        visibleGeometries := st.visibleGeometries ++ [d]
        traits := st.traits.set d.index
          ((st.traits.getD d.index 0) ||| DrawableVisibleGeometry) }
    let st := collectSourceBatches cfg d 0 d.sourceBatches st
    { st with drawableLighting := st.drawableLighting.set d.index [] }
  else if d.flags &&& DRAWABLE_LIGHT ≠ 0 then
    if ¬ d.effectiveColorIsBlack ∧ d.lightMaskEffective ≠ 0 then
      { st with visibleLights := st.visibleLights ++ [d] }
    else st
  else st

/-- One worker's chunk of `UpdateAndCollectSourceBatchesForThread`
(SceneBatchCollector.cpp:337-421). Each drawable is first marked updated;
a drawable whose draw distance is set and exceeded triggers the `return`
at SceneBatchCollector.cpp:355, which abandons the remaining drawables of
the chunk. -/
def runChunk (cfg : CollectorCfg) :
    CollectorState → List Drawable → CollectorState
  | st, [] => st
  | st, d :: rest =>
    let st :=
      { st with
        traits := st.traits.set d.index
          ((st.traits.getD d.index 0) ||| DrawableUpdated) }
    if d.drawDistance > 0 ∧ d.distance > d.drawDistance then st
    else runChunk cfg (processDrawable cfg st d) rest

/-- The initial per-frame collector state
(`SceneBatchCollector::InitializeFrame`, SceneBatchCollector.cpp:280-299):
cleared traits, Z ranges and collections sized to the drawable count, and
the configured passes. -/
def initCollectorState (numDrawables : Nat) (passes : List PassData) :
    CollectorState :=
  { traits := List.replicate numDrawables 0
    zRange := List.replicate numDrawables (0, 0)
    sceneZRange := []
    visibleGeometries := []
    visibleLights := []
    passes := passes
    drawableLighting := List.replicate numDrawables [] }

/-- Embeds `SceneBatchCollector::UpdateAndCollectSourceBatches`
(SceneBatchCollector.cpp:325-335): the work is partitioned into chunks,
one per lane; the thread-local collections are merged by lane index then
insertion order, which the sequential fold over the chunk list
reproduces. -/
def runFrame (cfg : CollectorCfg) (numDrawables : Nat)
    (passes : List PassData) (chunks : List (List Drawable)) :
    CollectorState :=
  chunks.foldl (runChunk cfg) (initCollectorState numDrawables passes)

/-- The drawables of a chunk that reach the per-kind processing: the
prefix before the first draw-distance skip, which also drops the skipped
drawable itself. -/
def processedOf : List Drawable → List Drawable
  | [] => []
  | d :: rest =>
    if d.drawDistance > 0 ∧ d.distance > d.drawDistance then []
    else d :: processedOf rest

/-- A processed drawable reaches the light branch and qualifies for the
visible light list: it is not geometry, it is a light, its effective
color is not black and its effective light mask is non-zero. -/
abbrev collectsLight (d : Drawable) : Prop :=
  ¬ d.flags &&& DRAWABLE_GEOMETRY ≠ 0 ∧ d.flags &&& DRAWABLE_LIGHT ≠ 0 ∧
    ¬ d.effectiveColorIsBlack ∧ d.lightMaskEffective ≠ 0

/-- Claim C8: for point and spot light queries, a candidate is added to
the lit geometry list iff it is marked visible geometry in the transient
index, its light mask intersects the light's effective mask, and it is
fully inside the query volume (group flag) or its bounding box intersects
the volume; hence the result is a subset of the spatial query's
candidates. -/
theorem litGeometriesQuery_characterization (traits : List Nat)
    (lightMask : Nat) (sphereIsInsideFast frustumIsInsideFast : Nat → Bool)
    (groups : List (Bool × List QueryDrawable)) :
    (∀ d, d ∈ pointLightQueryResult traits lightMask sphereIsInsideFast groups
      ↔ ∃ g ∈ groups, d ∈ g.2 ∧
          (traits.getD d.drawableIndex 0) &&& DrawableVisibleGeometry ≠ 0 ∧
          d.lightMask &&& lightMask ≠ 0 ∧
          (g.1 = true ∨ sphereIsInsideFast d.boundingBox = true)) ∧
    (∀ d ∈ pointLightQueryResult traits lightMask sphereIsInsideFast groups,
      d ∈ (groups.map Prod.snd).flatten) ∧
    (∀ d, d ∈ spotLightQueryResult traits lightMask frustumIsInsideFast groups
      ↔ ∃ g ∈ groups, d ∈ g.2 ∧
          (traits.getD d.drawableIndex 0) &&& DrawableVisibleGeometry ≠ 0 ∧
          d.lightMask &&& lightMask ≠ 0 ∧
          (g.1 = true ∨ frustumIsInsideFast d.boundingBox = true)) ∧
    (∀ d ∈ spotLightQueryResult traits lightMask frustumIsInsideFast groups,
      d ∈ (groups.map Prod.snd).flatten) := by
  have hgen : ∀ (volTest : Nat → Bool) (d : QueryDrawable),
      d ∈ (groups.map (fun g => g.2.filter (fun e =>
          ((traits.getD e.drawableIndex 0) &&& DrawableVisibleGeometry != 0)
          && (e.lightMask &&& lightMask != 0)
          && (g.1 || volTest e.boundingBox)))).flatten
      ↔ ∃ g ∈ groups, d ∈ g.2 ∧
          (traits.getD d.drawableIndex 0) &&& DrawableVisibleGeometry ≠ 0 ∧
          d.lightMask &&& lightMask ≠ 0 ∧
          (g.1 = true ∨ volTest d.boundingBox = true) := by
    intro volTest d
    constructor
    · intro hd
      rcases List.mem_flatten.mp hd with ⟨l, hl, hdl⟩
      rcases List.mem_map.mp hl with ⟨g, hg, rfl⟩
      rcases List.mem_filter.mp hdl with ⟨hdg, hpred⟩
      simp only [Bool.and_eq_true, bne_iff_ne, Bool.or_eq_true] at hpred
      exact ⟨g, hg, hdg, hpred.1.1, hpred.1.2, hpred.2⟩
    · rintro ⟨g, hg, hdg, h1, h2, h3⟩
      apply List.mem_flatten.mpr
      refine ⟨_, List.mem_map.mpr ⟨g, hg, rfl⟩, ?_⟩
      apply List.mem_filter.mpr
      refine ⟨hdg, ?_⟩
      simp only [Bool.and_eq_true, bne_iff_ne, Bool.or_eq_true]
      exact ⟨⟨h1, h2⟩, h3⟩
  have hpt := hgen sphereIsInsideFast
  have hsp := hgen frustumIsInsideFast
  refine ⟨hpt, ?_, hsp, ?_⟩
  · intro d hd
    rcases (hpt d).mp hd with ⟨g, hg, hdg, _⟩
    simp only [List.mem_flatten, List.mem_map]
    exact ⟨g.2, ⟨g, hg, rfl⟩, hdg⟩
  · intro d hd
    rcases (hsp d).mp hd with ⟨g, hg, hdg, _⟩
    simp only [List.mem_flatten, List.mem_map]
    exact ⟨g.2, ⟨g, hg, rfl⟩, hdg⟩

/-- Witness for claim C8: a single group not fully inside; the visible
drawable with intersecting mask and intersecting bounding box is kept. -/
theorem litGeometriesQuery_characterization_witness :
    (⟨0, 1, 5⟩ : QueryDrawable) ∈ pointLightQueryResult [2] 1 (fun _ => true)
      [(false, [⟨0, 1, 5⟩, ⟨0, 0, 5⟩])] := by
  apply ((litGeometriesQuery_characterization [2] 1 (fun _ => true)
    (fun _ => true) [(false, [⟨0, 1, 5⟩, ⟨0, 0, 5⟩])]).1 ⟨0, 1, 5⟩).mpr
  refine ⟨(false, [⟨0, 1, 5⟩, ⟨0, 0, 5⟩]), by decide, by decide, by decide,
    by decide, Or.inr (by decide)⟩

/-- Counterexample to claim C5: a `ForwardUnlitBase` pass whose technique
supplies the additional light pass at the configured index (index 1 holds
pass 5) but no base pass; the claim demands the batch enter the lit
bucket with the drawable marked forward-lit, yet
`CreateIntermediateSceneBatch` returns the empty batch and the batch is
dropped (pass data unchanged, no forward-lit flag). -/
theorem fillPass_additional_without_base_cex :
    Technique.GetPass ⟨true, [none, some 5]⟩ 1 = some 5 ∧
    fillPass ⟨3, 1, 0, 0, 0, [], false, 0⟩ 0 ⟨true, [none, some 5]⟩
        ⟨⟨ScenePassType.ForwardUnlitBase, "base", "", "litadd"⟩, 0,
          M_MAX_UNSIGNED, 1, [], []⟩
      = (⟨⟨ScenePassType.ForwardUnlitBase, "base", "", "litadd"⟩, 0,
          M_MAX_UNSIGNED, 1, [], []⟩, false) := by
  decide

/-- Claim C5 as amended: a batch enters the lit bucket (and flags the
drawable forward-lit) iff the technique supplies the additional light
pass together with the pass type's companion pass — the base pass for
`ForwardUnlitBase`, the first light pass for `ForwardLitBase`; otherwise,
when the pass type is `Unlit` or no additional light pass exists, a base
pass sends the batch to the unlit bucket; otherwise the batch is
dropped. -/
theorem fillPass_characterization (d : Drawable) (i : Nat)
    (tech : Technique) (pd : PassData) :
    if pd.desc.passType = ScenePassType.ForwardUnlitBase ∧
        tech.GetPass pd.basePassIndex ≠ none ∧
        tech.GetPass pd.additionalLightPassIndex ≠ none then
      fillPass d i tech pd
        = ({ pd with litBatches := pd.litBatches ++
            [⟨some d.index, i, tech.GetPass pd.basePassIndex,
              tech.GetPass pd.additionalLightPassIndex⟩] }, true)
    else if pd.desc.passType = ScenePassType.ForwardLitBase ∧
        tech.GetPass pd.firstLightPassIndex ≠ none ∧
        tech.GetPass pd.additionalLightPassIndex ≠ none then
      fillPass d i tech pd
        = ({ pd with litBatches := pd.litBatches ++
            [⟨some d.index, i, tech.GetPass pd.firstLightPassIndex,
              tech.GetPass pd.additionalLightPassIndex⟩] }, true)
    else if (pd.desc.passType = ScenePassType.Unlit ∨
        tech.GetPass pd.additionalLightPassIndex = none) ∧
        tech.GetPass pd.basePassIndex ≠ none then
      fillPass d i tech pd
        = ({ pd with unlitBatches := pd.unlitBatches ++
            [⟨some d.index, i, tech.GetPass pd.basePassIndex, none⟩] }, false)
    else
      fillPass d i tech pd = (pd, false) := by
  cases hty : pd.desc.passType with
  | Unlit =>
    cases hbase : tech.GetPass pd.basePassIndex with
    | none => simp [fillPass, createIntermediateSceneBatch, hty, hbase]
    | some bp => simp [fillPass, createIntermediateSceneBatch, hty, hbase]
  | ForwardUnlitBase =>
    cases haddl : tech.GetPass pd.additionalLightPassIndex with
    | none =>
      cases hbase : tech.GetPass pd.basePassIndex with
      | none => simp [fillPass, createIntermediateSceneBatch, hty, haddl, hbase]
      | some bp => simp [fillPass, createIntermediateSceneBatch, hty, haddl, hbase]
    | some ap =>
      cases hbase : tech.GetPass pd.basePassIndex with
      | none => simp [fillPass, createIntermediateSceneBatch, hty, haddl, hbase]
      | some bp => simp [fillPass, createIntermediateSceneBatch, hty, haddl, hbase]
  | ForwardLitBase =>
    cases haddl : tech.GetPass pd.additionalLightPassIndex with
    | none =>
      cases hbase : tech.GetPass pd.basePassIndex with
      | none => simp [fillPass, createIntermediateSceneBatch, hty, haddl, hbase]
      | some bp => simp [fillPass, createIntermediateSceneBatch, hty, haddl, hbase]
    | some ap =>
      cases hfl : tech.GetPass pd.firstLightPassIndex with
      | none => simp [fillPass, createIntermediateSceneBatch, hty, haddl, hfl]
      | some fl => simp [fillPass, createIntermediateSceneBatch, hty, haddl, hfl]

/-- A placeholder pass data used as `getD` default in concrete
evaluations. -/
def emptyPassData : PassData :=
  ⟨⟨ScenePassType.Unlit, "", "", ""⟩, 0, 0, 0, [], []⟩

/-- A pass name registry for the concrete invalid-pass frame: "base"
resolves to index 0, "litadd" to index 1, anything else is absent. -/
def invalidPassRegistry : String → Nat := fun s =>
  if s = "base" then 0 else if s = "litadd" then 1 else M_MAX_UNSIGNED

/-- An `Unlit` pass description that also names an additional light pass,
violating the Unlit subpass combination (base only). -/
def invalidUnlitDescription : ScenePassDescription :=
  ⟨ScenePassType.Unlit, "base", "", "litadd"⟩

/-- A geometry drawable whose material's single technique has a pass at
index 0. -/
def geometryWithBasePass : Drawable :=
  ⟨0, 1, 0, 0, 0, [⟨0, some ⟨[⟨some ⟨true, [some 7]⟩, 0, 0⟩]⟩⟩], false, 0⟩

/-- A collector configuration with quality 0, an empty default material
and no valid Z ranges. -/
def plainCollectorCfg : CollectorCfg :=
  ⟨0, ⟨[]⟩, fun _ => none⟩

/-- Claim C3 failing evaluation: the `Unlit` description that also
resolves an additional light pass is detected as invalid
(`PassData::IsValid` is false, tripping the `assert(0)` at
SceneBatchCollector.cpp:317), but the `continue` only skips the bucket
`Clear`: the pass stays in `passes_` and collection inserts the
drawable's batch into the invalid pass's unlit bucket, so the frame's
batches do reference the invalid pass. -/
theorem initializePasses_keeps_invalid_pass :
    PassData.isValid
        ((initializePasses invalidPassRegistry [invalidUnlitDescription]).getD 0
          emptyPassData) = false ∧
    ((runFrame plainCollectorCfg 1
        (initializePasses invalidPassRegistry [invalidUnlitDescription])
        [[geometryWithBasePass]]).passes.getD 0 emptyPassData).unlitBatches
      = [⟨some 0, 0, some 7, none⟩] := by
  decide

/-- A drawable whose draw distance (1) is exceeded by its distance (2). -/
def tooFarDrawable : Drawable := ⟨0, 1, 1, 2, 0, [], false, 0⟩

/-- An in-range geometry drawable with index 1 and no source batches. -/
def inRangeGeometry : Drawable := ⟨1, 1, 0, 0, 0, [], false, 0⟩

/-- Claim C4 failing evaluation: when the too-far drawable and an
in-range geometry share one worker chunk, the draw-distance `return`
(SceneBatchCollector.cpp:355) abandons the chunk: the in-range geometry
is never updated, never marked visible and never collected (traits stay
`[DrawableUpdated, 0]`, visible geometry list empty). Splitting the same
two drawables into separate chunks collects the geometry, showing the
abort — not the drawable itself — caused the loss. -/
theorem runChunk_drawDistance_aborts_chunk :
    (runFrame plainCollectorCfg 2 [] [[tooFarDrawable, inRangeGeometry]]).traits
      = [DrawableUpdated, 0] ∧
    (runFrame plainCollectorCfg 2 []
      [[tooFarDrawable, inRangeGeometry]]).visibleGeometries = [] ∧
    (runFrame plainCollectorCfg 2 []
      [[tooFarDrawable], [inRangeGeometry]]).visibleGeometries
      = [inRangeGeometry] ∧
    (runFrame plainCollectorCfg 2 []
      [[tooFarDrawable], [inRangeGeometry]]).traits
      = [DrawableUpdated, DrawableUpdated ||| DrawableVisibleGeometry] := by
  decide

theorem collectSourceBatches_visibleLights (cfg : CollectorCfg)
    (d : Drawable) :
    ∀ (sbs : List SourceBatch) (i : Nat) (st : CollectorState),
    (collectSourceBatches cfg d i sbs st).visibleLights = st.visibleLights := by
  intro sbs
  induction sbs with
  | nil => intro i st; rfl
  | cons sb rest ih =>
    intro i st
    show (match findTechnique cfg.materialQuality d.lodDistance
        ((sb.material.getD cfg.defaultMaterial).techniques) with
      | none => collectSourceBatches cfg d (i + 1) rest st
      | some tech => _).visibleLights = st.visibleLights
    cases findTechnique cfg.materialQuality d.lodDistance
        ((sb.material.getD cfg.defaultMaterial).techniques) with
    | none => exact ih (i + 1) st
    | some tech => exact ih (i + 1) _

theorem processDrawable_visibleLights (cfg : CollectorCfg)
    (st : CollectorState) (d : Drawable) :
    (processDrawable cfg st d).visibleLights
      = st.visibleLights ++ (if collectsLight d then [d] else []) := by
  unfold processDrawable
  by_cases hg : d.flags &&& DRAWABLE_GEOMETRY ≠ 0
  · rw [if_pos hg]
    have : collectsLight d → False := fun h => h.1 hg
    rw [if_neg this]
    cases hz : cfg.zRangeOf d with
    | none => simp [collectSourceBatches_visibleLights]
    | some zr => simp [collectSourceBatches_visibleLights]
  · rw [if_neg hg]
    by_cases hl : d.flags &&& DRAWABLE_LIGHT ≠ 0
    · rw [if_pos hl]
      by_cases hq : ¬ d.effectiveColorIsBlack ∧ d.lightMaskEffective ≠ 0
      · rw [if_pos hq, if_pos ⟨hg, hl, hq.1, hq.2⟩]
      · rw [if_neg hq, if_neg (fun h : collectsLight d => hq ⟨h.2.2.1, h.2.2.2⟩)]
        simp
    · rw [if_neg hl, if_neg (fun h : collectsLight d => hl h.2.1)]
      simp

theorem runChunk_visibleLights (cfg : CollectorCfg) :
    ∀ (c : List Drawable) (st : CollectorState),
    (runChunk cfg st c).visibleLights
      = st.visibleLights
        ++ (processedOf c).filter (fun d => decide (collectsLight d)) := by
  intro c
  induction c with
  | nil => intro st; simp [runChunk, processedOf]
  | cons d rest ih =>
    intro st
    show (if d.drawDistance > 0 ∧ d.distance > d.drawDistance then _
      else runChunk cfg _ rest).visibleLights = _
    by_cases hskip : d.drawDistance > 0 ∧ d.distance > d.drawDistance
    · rw [if_pos hskip]
      simp [processedOf, hskip]
    · rw [if_neg hskip, ih, processDrawable_visibleLights]
      have hpc : processedOf (d :: rest) = d :: processedOf rest := if_neg hskip
      rw [hpc, List.filter_cons]
      by_cases hq : collectsLight d
      · rw [if_pos hq, if_pos (decide_eq_true hq)]
        simp
      · rw [if_neg hq, if_neg (fun hcontra => hq (of_decide_eq_true hcontra))]
        simp

theorem runFrame_visibleLights (cfg : CollectorCfg) (numDrawables : Nat)
    (passes : List PassData) (chunks : List (List Drawable)) :
    (runFrame cfg numDrawables passes chunks).visibleLights
      = ((chunks.map (fun c =>
          (processedOf c).filter (fun d => decide (collectsLight d)))).flatten) := by
  have hfold : ∀ (cs : List (List Drawable)) (st : CollectorState),
      ((cs.foldl (runChunk cfg) st).visibleLights
        = st.visibleLights ++ ((cs.map (fun c =>
            (processedOf c).filter (fun d => decide (collectsLight d)))).flatten)) := by
    intro cs
    induction cs with
    | nil => intro st; simp
    | cons c rest ih =>
      intro st
      show ((rest.foldl (runChunk cfg) (runChunk cfg st c)).visibleLights = _)
      rw [ih, runChunk_visibleLights]
      simp [List.append_assoc]
  rw [runFrame, hfold]
  rfl

theorem processedOf_sublist (c : List Drawable) :
    List.Sublist (processedOf c) c := by
  induction c with
  | nil => exact List.Sublist.refl _
  | cons d rest ih =>
    show List.Sublist (if _ then _ else _) _
    by_cases hskip : d.drawDistance > 0 ∧ d.distance > d.drawDistance
    · rw [if_pos hskip]
      exact List.nil_sublist _
    · rw [if_neg hskip]
      exact List.Sublist.cons₂ d ih

theorem count_filter_eq {α : Type} [DecidableEq α] (p : α → Bool)
    (l : List α) (a : α) :
    (l.filter p).count a = if p a then l.count a else 0 := by
  induction l with
  | nil => simp
  | cons x xs ih =>
    by_cases hx : p x
    · by_cases hax : x = a
      · subst hax; simp [List.count_cons, hx, ih]
      · simp [List.count_cons, hx, ih, hax]
    · by_cases hax : x = a
      · subst hax; simp [List.count_cons, hx, ih]
      · simp [List.count_cons, hx, ih, hax]

theorem count_flatten_processed_le (d : Drawable) :
    ∀ (chunks : List (List Drawable)),
    ((chunks.map processedOf).flatten).count d ≤ (chunks.flatten).count d := by
  intro chunks
  induction chunks with
  | nil => simp
  | cons c rest ih =>
    simp only [List.map_cons, List.flatten_cons, List.count_append]
    exact Nat.add_le_add ((processedOf_sublist c).count_le d) ih

/-- Claim C9: a light drawable that reaches the per-kind processing of
the visibility pass is inserted into the merged visible light list iff
its effective color is not black and its effective light mask is
non-zero, and each qualifying processed light appears exactly once per
frame. -/
theorem runFrame_visibleLights_count (cfg : CollectorCfg)
    (numDrawables : Nat) (passes : List PassData)
    (chunks : List (List Drawable)) (d : Drawable)
    (hGeo : d.flags &&& DRAWABLE_GEOMETRY = 0)
    (hLight : d.flags &&& DRAWABLE_LIGHT ≠ 0)
    (hOnce : (chunks.flatten).count d = 1)
    (hProc : d ∈ (chunks.map processedOf).flatten) :
    (runFrame cfg numDrawables passes chunks).visibleLights.count d
      = if ¬ d.effectiveColorIsBlack ∧ d.lightMaskEffective ≠ 0 then 1
        else 0 := by
  rw [runFrame_visibleLights]
  have hmm : (chunks.map (fun c =>
      (processedOf c).filter (fun e => decide (collectsLight e))))
      = ((chunks.map processedOf).map (fun l =>
        l.filter (fun e => decide (collectsLight e)))) := by
    rw [List.map_map]
    rfl
  rw [hmm, ← List.filter_flatten, count_filter_eq]
  have hcnt : ((chunks.map processedOf).flatten).count d = 1 := by
    have hle := count_flatten_processed_le d chunks
    rw [hOnce] at hle
    have hge : 0 < ((chunks.map processedOf).flatten).count d :=
      List.count_pos_iff.mpr hProc
    omega
  have hcl : decide (collectsLight d) = true
      ↔ (¬ d.effectiveColorIsBlack ∧ d.lightMaskEffective ≠ 0) := by
    simp [collectsLight, hGeo, hLight]
  by_cases hq : ¬ d.effectiveColorIsBlack ∧ d.lightMaskEffective ≠ 0
  · rw [if_pos (hcl.mpr hq), if_pos hq, hcnt]
  · rw [if_neg (fun h => hq (hcl.mp h)), if_neg hq]

/-- Witness for claim C9: one chunk holding one qualifying light; it is
collected exactly once. -/
theorem runFrame_visibleLights_count_witness :
    (runFrame plainCollectorCfg 1 []
        [[⟨0, 2, 0, 0, 0, [], false, 5⟩]]).visibleLights.count
        ⟨0, 2, 0, 0, 0, [], false, 5⟩
      = if ¬ (⟨0, 2, 0, 0, 0, [], false, 5⟩ : Drawable).effectiveColorIsBlack
          ∧ (⟨0, 2, 0, 0, 0, [], false, 5⟩ : Drawable).lightMaskEffective ≠ 0
        then 1 else 0 := by
  exact runFrame_visibleLights_count plainCollectorCfg 1 []
    [[⟨0, 2, 0, 0, 0, [], false, 5⟩]] ⟨0, 2, 0, 0, 0, [], false, 5⟩
    (by decide) (by decide) (by decide) (by decide)

end Rbfx
